import Mathlib

/-!
# Image.hpp : an owning handle over a FreeImage bitmap

A shallow embedding of `src/Image/Image.hpp`.

* The FreeImage library is external to the repository. It is a parameter of
  the development: a record `Codec σ` of functions over an abstract library
  state `σ` (bitmaps, files, registered callbacks).
* Every call the wrapper makes into the library is appended to a log
  (`World.calls`), in program order, so that statements such as "the library
  is never called with a null bitmap" or "unload is called once" can be read
  off the log.
* `assert` is modelled with assertions enabled: a failed assertion stops the
  member function with `Fail.assertion`.
* `unsigned` is 32 bits wide and `size_t` 64 bits wide; conversions are written
  with an explicit `% 2 ^ 32`.
* Text written to `std::cout` is diagnostic only and is not part of the state;
  the library calls made while printing are logged like all others.
* The message callback registered by `initFreeImage` is run by the library, at
  moments of its choosing; what it does belongs to the library state and is not
  logged.
-/

set_option autoImplicit false

/-! ## Data model -/

/-- A `FIBITMAP*`: an address, `0` being `nullptr`. -/
abbrev FIBITMAP := Nat

/-- The null pointer. -/
abbrev nullptr : FIBITMAP := 0

/-- The enumeration `FREE_IMAGE_FORMAT`, an `int`. -/
abbrev FREE_IMAGE_FORMAT := Int

/-- A `BYTE`. -/
abbrev BYTE := Fin 256

/-- The FreeImage color quad: four 8-bit channels. -/
structure RGBQUAD where
  rgbBlue : BYTE
  rgbGreen : BYTE
  rgbRed : BYTE
  rgbReserved : BYTE
deriving DecidableEq, Repr

/-- The functions of the FreeImage library that `Image.hpp` calls, over a
library state `σ`. Functions that return `unsigned` return a natural number
that the wrapper reads modulo `2 ^ 32`. `GetPixelColor` receives the previous
contents of its out-parameter and returns its new contents. -/
structure Codec (σ : Type) where
  SetOutputMessage : σ → σ
  Allocate : σ → Int → Int → Int → FIBITMAP × σ
  Load : σ → FREE_IMAGE_FORMAT → String → Int → FIBITMAP × σ
  Unload : σ → FIBITMAP → σ
  Save : σ → FREE_IMAGE_FORMAT → FIBITMAP → String → Int → Bool × σ
  GetImageType : σ → FIBITMAP → Int
  GetColorType : σ → FIBITMAP → Int
  GetBPP : σ → FIBITMAP → Nat
  GetWidth : σ → FIBITMAP → Nat
  GetHeight : σ → FIBITMAP → Nat
  GetPitch : σ → FIBITMAP → Nat
  GetPixelColor : σ → FIBITMAP → Nat → Nat → RGBQUAD → Bool × RGBQUAD
  SetPixelColor : σ → FIBITMAP → Nat → Nat → RGBQUAD → Bool × σ
  GetBits : σ → FIBITMAP → Nat
  GetRedMask : σ → FIBITMAP → Nat
  GetGreenMask : σ → FIBITMAP → Nat
  GetBlueMask : σ → FIBITMAP → Nat

/-- The arithmetic of the C++ type `float` used by `getRatio`: conversion from
`size_t` and division. -/
structure FloatOps (F : Type) where
  ofSizeT : Nat → F
  div : F → F → F

/-- One call into the FreeImage library, with its arguments (and, for the
requests that hand out a bitmap or report success, its result). -/
inductive Call where
  | getCopyrightMessage
  | setOutputMessage
  | getFormatFromFIF (fif : FREE_IMAGE_FORMAT)
  | allocate (width height depth : Int) (ret : FIBITMAP)
  | load (fif : FREE_IMAGE_FORMAT) (path : String) (flags : Int) (ret : FIBITMAP)
  | unload (b : FIBITMAP)
  | save (fif : FREE_IMAGE_FORMAT) (b : FIBITMAP) (path : String) (flags : Int) (ret : Bool)
  | getImageType (b : FIBITMAP)
  | getColorType (b : FIBITMAP)
  | getBPP (b : FIBITMAP)
  | getWidth (b : FIBITMAP)
  | getHeight (b : FIBITMAP)
  | getPitch (b : FIBITMAP)
  | getPixelColor (b : FIBITMAP) (x y : Nat)
  | setPixelColor (b : FIBITMAP) (x y : Nat) (value : RGBQUAD)
  | getBits (b : FIBITMAP)
  | getRedMask (b : FIBITMAP)
  | getGreenMask (b : FIBITMAP)
  | getBlueMask (b : FIBITMAP)
deriving DecidableEq, Repr

/-- The bitmap handed out by an allocation or load request. -/
def Call.result : Call → Option FIBITMAP
  | .allocate _ _ _ r => some r
  | .load _ _ _ r => some r
  | _ => none

/-- Whether the call is one of the two made by `initFreeImage`. -/
def Call.isInit : Call → Bool
  | .getCopyrightMessage => true
  | .setOutputMessage => true
  | _ => false

/-- Whether the call is one of the two per-pixel library functions. -/
def Call.isPixel : Call → Bool
  | .getPixelColor _ _ _ => true
  | .setPixelColor _ _ _ _ => true
  | _ => false

/-- What a C function reads from `s.c_str()`: the characters of the
`std::string` before its first NUL. -/
def c_str (s : String) : String :=
  String.mk (s.data.takeWhile (fun ch => ch ≠ Char.ofNat 0))

/-- Exception `ImageCantAllocateExcept`: a `std::runtime_error` with its message. -/
structure ImageCantAllocateExcept where
  message : String
deriving DecidableEq, Repr

/-- Exception `ImageCantLoadExept`: a `std::runtime_error` with its message, and
the member `path`. -/
structure ImageCantLoadExept where
  path : String
  message : String
deriving DecidableEq, Repr

/-- The default argument of the constructor of `ImageCantAllocateExcept`. -/
def ImageCantAllocateExcept.defaultMessage : String := "Allocating image failed!"

/-- The default argument of the constructor of `ImageCantLoadExept`. -/
def ImageCantLoadExept.defaultMessage : String := "Loading image from fime Failed"

/-- Character buffers owned by `std::string` objects, by address: `some text`
while the owning string is alive, `none` once it has been destroyed. -/
abbrev Buffers := List (Option String)

/-- The text a `const char*` gives access to: the buffer at that address if its
owner is still alive. -/
def Buffers.read (m : Buffers) (p : Nat) : Option String :=
  match m[p]? with
  | some (some text) => some text
  | _ => none

/-- The text that `ImageCantLoadExept::what` writes into its local
`std::ostringstream out`. -/
def ImageCantLoadExept.streamText (e : ImageCantLoadExept) : String :=
  c_str e.message ++ "\nImage path was : " ++ e.path ++ "\n"

/-- Member `ImageCantLoadExept::what`. The statement `return out.str().c_str();`
materialises the temporary `std::string` `out.str()` in a new buffer, takes the
address of that buffer, and destroys the temporary when the statement
completes; the address is what the caller receives. -/
def ImageCantLoadExept.what (e : ImageCantLoadExept) (m : Buffers) : Nat × Buffers :=
  let tmp := m.length
  let m1 := m ++ [some e.streamText]
  let p := tmp
  let m2 := m1.set tmp none
  (p, m2)

/-- How a member function stops without returning: a thrown exception, or a
failed `assert` (with the asserted expression). -/
inductive Fail where
  | cantAllocate (e : ImageCantAllocateExcept)
  | cantLoad (e : ImageCantLoadExept)
  | assertion (cond : String)
deriving DecidableEq, Repr

deriving instance DecidableEq for Except

/-- The state outside the `Image` objects: the library state, the static member
`Image::freeimageInitialized`, and the log of library calls. -/
structure World (σ : Type) where
  fi : σ
  freeimageInitialized : Bool
  calls : List Call

/-- Record one library call. -/
def World.call {σ : Type} (w : World σ) (c : Call) : World σ :=
  { w with calls := w.calls ++ [c] }

/-- The nested type `Image::ColorMask`. -/
structure ColorMask where
  R : Nat
  G : Nat
  B : Nat
deriving DecidableEq, Repr

/-- An object of class `Image`: its only non-static member is `bitmap`. -/
structure Image where
  bitmap : FIBITMAP
deriving DecidableEq, Repr

namespace Image

variable {σ : Type}

/-- Static member `initFreeImage`. -/
def initFreeImage (c : Codec σ) (w : World σ) : World σ :=
  let w1 := w.call .getCopyrightMessage
  let w2 : World σ := { w1 with fi := c.SetOutputMessage w1.fi, calls := w1.calls ++ [.setOutputMessage] }
  { w2 with freeimageInitialized := true }

/-- The world in which the request of a constructor reaches the library: after
the statement `if(!freeimageInitialized) initFreeImage();`. -/
def atRequest (c : Codec σ) (w : World σ) : World σ :=
  if w.freeimageInitialized = false then initFreeImage c w else w

/-- Constructor `Image(int width, int height, int depth)`. -/
def ctorAllocate (c : Codec σ) (w : World σ) (width height depth : Int) :
    Except Fail Image × World σ :=
  let w1 := atRequest c w
  let r := c.Allocate w1.fi width height depth
  let w2 : World σ := { w1 with fi := r.2, calls := w1.calls ++ [.allocate width height depth r.1] }
  if r.1 = nullptr then
    (.error (.cantAllocate ⟨ImageCantAllocateExcept.defaultMessage⟩), w2)
  else
    (.ok ⟨r.1⟩, w2)

/-- Constructor `Image(const std::string& path, FREE_IMAGE_FORMAT fif, int flags)`. -/
def ctorLoad (c : Codec σ) (w : World σ) (path : String) (fif : FREE_IMAGE_FORMAT) (flags : Int) :
    Except Fail Image × World σ :=
  let w1 := atRequest c w
  let r := c.Load w1.fi fif (c_str path) flags
  let w2 : World σ := { w1 with fi := r.2, calls := w1.calls ++ [.load fif (c_str path) flags r.1] }
  if r.1 = nullptr then
    (.error (.cantLoad ⟨path, ImageCantLoadExept.defaultMessage⟩), w2)
  else
    (.ok ⟨r.1⟩, w2.call (.getFormatFromFIF fif))

/-- Move constructor `Image(Image&& other)`: the new object and `other` afterwards. -/
def ctorMove (other : Image) : Image × Image :=
  (⟨other.bitmap⟩, ⟨nullptr⟩)

/-- Destructor `~Image()`. -/
def dtor (c : Codec σ) (w : World σ) (self : Image) : World σ :=
  if self.bitmap ≠ nullptr then
    { w with fi := c.Unload w.fi self.bitmap, calls := w.calls ++ [.unload self.bitmap] }
  else
    w

/-- Member `save`. -/
def save (c : Codec σ) (w : World σ) (self : Image) (path : String) (fif : FREE_IMAGE_FORMAT)
    (flags : Int) : Except Fail Unit × World σ :=
  let r := c.Save w.fi fif self.bitmap (c_str path) flags
  (.ok (), { w with fi := r.2, calls := w.calls ++ [.save fif self.bitmap (c_str path) flags r.1] })

/-- Member `type`. -/
def type (c : Codec σ) (w : World σ) (self : Image) : Except Fail Int × World σ :=
  if self.bitmap = nullptr then (.error (.assertion "bitmap"), w)
  else (.ok (c.GetImageType w.fi self.bitmap), w.call (.getImageType self.bitmap))

/-- Member `colorType`. -/
def colorType (c : Codec σ) (w : World σ) (self : Image) : Except Fail Int × World σ :=
  if self.bitmap = nullptr then (.error (.assertion "bitmap"), w)
  else (.ok (c.GetColorType w.fi self.bitmap), w.call (.getColorType self.bitmap))

/-- Member `depth`: the `unsigned` result of the library widened to `size_t`. -/
def depth (c : Codec σ) (w : World σ) (self : Image) : Except Fail Nat × World σ :=
  if self.bitmap = nullptr then (.error (.assertion "bitmap"), w)
  else (.ok (c.GetBPP w.fi self.bitmap % 2 ^ 32), w.call (.getBPP self.bitmap))

/-- Member `width`: the `unsigned` result of the library widened to `size_t`. -/
def width (c : Codec σ) (w : World σ) (self : Image) : Except Fail Nat × World σ :=
  if self.bitmap = nullptr then (.error (.assertion "bitmap"), w)
  else (.ok (c.GetWidth w.fi self.bitmap % 2 ^ 32), w.call (.getWidth self.bitmap))

/-- Member `height`: the `unsigned` result of the library widened to `size_t`. -/
def height (c : Codec σ) (w : World σ) (self : Image) : Except Fail Nat × World σ :=
  if self.bitmap = nullptr then (.error (.assertion "bitmap"), w)
  else (.ok (c.GetHeight w.fi self.bitmap % 2 ^ 32), w.call (.getHeight self.bitmap))

/-- Member `pitch`: the `unsigned` result of the library widened to `size_t`. -/
def pitch (c : Codec σ) (w : World σ) (self : Image) : Except Fail Nat × World σ :=
  if self.bitmap = nullptr then (.error (.assertion "bitmap"), w)
  else (.ok (c.GetPitch w.fi self.bitmap % 2 ^ 32), w.call (.getPitch self.bitmap))

/-- Member `pixelColor`. The local `RGBQUAD color` is not initialised: its
contents before the library call are the argument `uninit`. -/
def pixelColor (c : Codec σ) (w : World σ) (self : Image) (x y : Nat) (uninit : RGBQUAD) :
    Except Fail RGBQUAD × World σ :=
  if self.bitmap = nullptr then (.error (.assertion "bitmap"), w)
  else
    match self.width c w with
    | (.error e, w1) => (.error e, w1)
    | (.ok wd, w1) =>
      if ¬ x < wd then (.error (.assertion "x < width()"), w1)
      else
        match self.height c w1 with
        | (.error e, w2) => (.error e, w2)
        | (.ok ht, w2) =>
          if ¬ y < ht then (.error (.assertion "y < height()"), w2)
          else
            let r := c.GetPixelColor w2.fi self.bitmap (x % 2 ^ 32) (y % 2 ^ 32) uninit
            (.ok r.2, w2.call (.getPixelColor self.bitmap (x % 2 ^ 32) (y % 2 ^ 32)))

/-- Member `setPixelColor`. -/
def setPixelColor (c : Codec σ) (w : World σ) (self : Image) (x y : Nat) (value : RGBQUAD) :
    Except Fail Unit × World σ :=
  if self.bitmap = nullptr then (.error (.assertion "bitmap"), w)
  else
    match self.width c w with
    | (.error e, w1) => (.error e, w1)
    | (.ok wd, w1) =>
      if ¬ x < wd then (.error (.assertion "x < width()"), w1)
      else
        match self.height c w1 with
        | (.error e, w2) => (.error e, w2)
        | (.ok ht, w2) =>
          if ¬ y < ht then (.error (.assertion "y < height()"), w2)
          else
            let r := c.SetPixelColor w2.fi self.bitmap (x % 2 ^ 32) (y % 2 ^ 32) value
            (.ok (), { w2 with fi := r.2,
                               calls := w2.calls ++ [.setPixelColor self.bitmap (x % 2 ^ 32) (y % 2 ^ 32) value] })

/-- Member `bits`: the address returned by the library. -/
def bits (c : Codec σ) (w : World σ) (self : Image) : Except Fail Nat × World σ :=
  if self.bitmap = nullptr then (.error (.assertion "bitmap"), w)
  else (.ok (c.GetBits w.fi self.bitmap), w.call (.getBits self.bitmap))

/-- Member `colorMask`: the three initialisers are evaluated in order. -/
def colorMask (c : Codec σ) (w : World σ) (self : Image) : Except Fail ColorMask × World σ :=
  let r := c.GetRedMask w.fi self.bitmap % 2 ^ 32
  let w1 := w.call (.getRedMask self.bitmap)
  let g := c.GetGreenMask w1.fi self.bitmap % 2 ^ 32
  let w2 := w1.call (.getGreenMask self.bitmap)
  let b := c.GetBlueMask w2.fi self.bitmap % 2 ^ 32
  let w3 := w2.call (.getBlueMask self.bitmap)
  (.ok ⟨r, g, b⟩, w3)

/-- Member `getRatio`, with `width()` evaluated before `height()`. -/
def getRatio {F : Type} (fl : FloatOps F) (c : Codec σ) (w : World σ) (self : Image) :
    Except Fail F × World σ :=
  match self.width c w with
  | (.error e, w1) => (.error e, w1)
  | (.ok wd, w1) =>
    match self.height c w1 with
    | (.error e, w2) => (.error e, w2)
    | (.ok ht, w2) => (.ok (fl.div (fl.ofSizeT wd) (fl.ofSizeT ht)), w2)

/-- The results of the nine accessors `type`, `colorType`, `depth`, `width`,
`height`, `pitch`, `pixelColor`, `colorMask` and `getRatio` on one object, each
called in the world `w`. -/
def accessors {F : Type} (fl : FloatOps F) (c : Codec σ) (w : World σ) (self : Image)
    (x y : Nat) (uninit : RGBQUAD) :=
  (self.type c w, self.colorType c w, self.depth c w, self.width c w, self.height c w,
   self.pitch c w, self.pixelColor c w x y uninit, self.colorMask c w, self.getRatio fl c w)

end Image

/-! ## Programs over several `Image` objects -/

/-- The state of a program: the world, the `Image` objects created so far in
order of creation (`none` once an object has been destroyed), and the
exceptions thrown so far (each caught by the caller of the constructor). -/
structure State (σ : Type) where
  world : World σ
  objs : List (Option Image)
  thrown : List Fail

/-- Program start: no object exists, `freeimageInitialized` is `false`. -/
def State.init {σ : Type} (fi0 : σ) : State σ :=
  { world := { fi := fi0, freeimageInitialized := false, calls := [] }, objs := [], thrown := [] }

/-- The operations of a program. Objects are named by their index in order of
creation; the two constructors and the move constructor create the next object. -/
inductive Op where
  | alloc (width height depth : Int)
  | load (path : String) (fif : FREE_IMAGE_FORMAT) (flags : Int)
  | moveCtor (src : Nat)
  | moveAssign (dst src : Nat)
  | destroy (h : Nat)
  | save (h : Nat) (path : String) (fif : FREE_IMAGE_FORMAT) (flags : Int)
deriving DecidableEq, Repr

/-- Move assignment `operator=(Image&& other)` on the objects `dst` (the left
operand, `*this`) and `src` (`other`), which may be the same object: first
`bitmap = other.bitmap`, then `other.bitmap = nullptr`. -/
def assignMove (objs : List (Option Image)) (dst src : Nat) : Option (List (Option Image)) :=
  match objs[dst]?, objs[src]? with
  | some (some _), some (some other) =>
    let objs1 := objs.set dst (some ⟨other.bitmap⟩)
    some (objs1.set src (some ⟨nullptr⟩))
  | _, _ => none

/-- One operation. The result is `none` when the operation names an object that
does not exist or has been destroyed. -/
def step {σ : Type} (c : Codec σ) (s : State σ) : Op → Option (State σ)
  | .alloc width height depth =>
    match Image.ctorAllocate c s.world width height depth with
    | (.ok img, w) => some { s with world := w, objs := s.objs ++ [some img] }
    | (.error e, w) => some { s with world := w, thrown := s.thrown ++ [e] }
  | .load path fif flags =>
    match Image.ctorLoad c s.world path fif flags with
    | (.ok img, w) => some { s with world := w, objs := s.objs ++ [some img] }
    | (.error e, w) => some { s with world := w, thrown := s.thrown ++ [e] }
  | .moveCtor src =>
    match s.objs[src]? with
    | some (some other) =>
      let r := Image.ctorMove other
      some { s with objs := s.objs.set src (some r.2) ++ [some r.1] }
    | _ => none
  | .moveAssign dst src =>
    match assignMove s.objs dst src with
    | some objs => some { s with objs := objs }
    | none => none
  | .destroy h =>
    match s.objs[h]? with
    | some (some self) =>
      some { s with world := Image.dtor c s.world self, objs := s.objs.set h none }
    | _ => none
  | .save h path fif flags =>
    match s.objs[h]? with
    | some (some self) =>
      some { s with world := (Image.save c s.world self path fif flags).2 }
    | _ => none

/-- Run a program, operation by operation. -/
def run {σ : Type} (c : Codec σ) : State σ → List Op → Option (State σ)
  | s, [] => some s
  | s, op :: ops =>
    match step c s op with
    | some s1 => run c s1 ops
    | none => none

/-- A call of one of the two constructors that request a bitmap from the library. -/
inductive CtorCall where
  | alloc (width height depth : Int)
  | load (path : String) (fif : FREE_IMAGE_FORMAT) (flags : Int)
deriving DecidableEq, Repr

/-- The program operation of a constructor call. -/
def CtorCall.toOp : CtorCall → Op
  | .alloc width height depth => .alloc width height depth
  | .load path fif flags => .load path fif flags

/-- Whether a library call is the request that the constructor call makes. -/
def CtorCall.isRequest : CtorCall → Call → Bool
  | .alloc width height depth, .allocate w h d _ => width = w && height = h && depth = d
  | .load path fif flags, .load f p fl _ => c_str path = p && fif = f && flags = fl
  | _, _ => false

/-! ## Reading the call log -/

/-- How many times the log shows bitmap `b` being handed out by the library. -/
def handedOut (cs : List Call) (b : FIBITMAP) : Nat :=
  cs.countP (fun c => c.result = some b)

/-- How many times the log shows bitmap `b` being passed to `FreeImage_Unload`. -/
def released (cs : List Call) (b : FIBITMAP) : Nat :=
  cs.count (.unload b)

/-- Check of a log given latest call first: each bitmap handed out is null or
is not outstanding (handed out and not yet unloaded) at that moment. -/
def freshRev : List Call → Bool
  | [] => true
  | c :: earlier =>
    (match c.result with
     | some r => r = nullptr || handedOut earlier r ≤ released earlier r
     | none => true) && freshRev earlier

/-- The allocator contract of the library, as seen in a log: it never hands out
a bitmap that is still outstanding. -/
def FreshAnswers (cs : List Call) : Prop :=
  freshRev cs.reverse = true

/-- The allocator contract can be checked on a given log. -/
instance FreshAnswers.decidable (cs : List Call) : Decidable (FreshAnswers cs) :=
  inferInstanceAs (Decidable (freshRev cs.reverse = true))

/-- How many live objects hold bitmap `b`. -/
def heldCount (objs : List (Option Image)) (b : FIBITMAP) : Nat :=
  objs.count (some ⟨b⟩)

/-- What the round trip needs from the library for bitmap `b` at `(x, y)` in
library state `fi` and for color `col`: writing the pixel leaves the
dimensions of the bitmap as they are, and reading the pixel back yields the
color written, whatever the out-parameter held. -/
structure StoresPixel {σ : Type} (c : Codec σ) (fi : σ) (b : FIBITMAP) (x y : Nat)
    (col : RGBQUAD) : Prop where
  width_eq : c.GetWidth (c.SetPixelColor fi b x y col).2 b = c.GetWidth fi b
  height_eq : c.GetHeight (c.SetPixelColor fi b x y col).2 b = c.GetHeight fi b
  read_back : ∀ u, (c.GetPixelColor (c.SetPixelColor fi b x y col).2 b x y u).2 = col

/-! ## A small in-memory library

A concrete `Codec`, used to run the wrapper on explicit inputs. It keeps
bitmaps in memory only, of 24 or 32 bits per pixel. A 24-bit pixel has room for
three channel bytes: the fourth byte of a quad is not stored and reads as 0. -/

/-- One bitmap of the in-memory library. -/
structure MemBitmap where
  width : Nat
  height : Nat
  bpp : Nat
  pixels : List ((Nat × Nat) × RGBQUAD)
deriving DecidableEq, Repr

/-- State of the in-memory library: slot `p - 1` holds the bitmap at address `p`
(`none` once unloaded). Addresses are not reused. -/
abbrev MemState := List (Option MemBitmap)

/-- The bitmap at an address, if it is allocated. -/
def MemState.at (m : MemState) (p : FIBITMAP) : Option MemBitmap :=
  if p = 0 then none else
    match m[p - 1]? with
    | some (some bm) => some bm
    | _ => none

/-- The color stored for a pixel, black when it was never written. -/
def MemBitmap.pixel (bm : MemBitmap) (x y : Nat) : RGBQUAD :=
  match bm.pixels.lookup (x, y) with
  | some q => q
  | none => ⟨0, 0, 0, 0⟩

/-- What a bitmap of the given depth keeps of a color quad. -/
def MemBitmap.stored (bm : MemBitmap) (q : RGBQUAD) : RGBQUAD :=
  if bm.bpp = 32 then q else { q with rgbReserved := 0 }

/-- The in-memory library. It has no files: loading and saving always fail. -/
def memCodec : Codec MemState where
  SetOutputMessage := fun m => m
  Allocate := fun m width height depth =>
    if width.natAbs = 0 ∨ height.natAbs = 0 ∨ ¬ (depth = 24 ∨ depth = 32) then (nullptr, m)
    else (m.length + 1, m ++ [some ⟨width.natAbs, height.natAbs, depth.natAbs, []⟩])
  Load := fun m _ _ _ => (nullptr, m)
  Unload := fun m p => if p = 0 then m else m.set (p - 1) none
  Save := fun m _ _ _ _ => (false, m)
  GetImageType := fun m p => if (m.at p).isSome then 1 else 0
  GetColorType := fun _ _ => 2
  GetBPP := fun m p => match m.at p with | some bm => bm.bpp | none => 0
  GetWidth := fun m p => match m.at p with | some bm => bm.width | none => 0
  GetHeight := fun m p => match m.at p with | some bm => bm.height | none => 0
  GetPitch := fun m p => match m.at p with | some bm => (bm.width * bm.bpp + 31) / 32 * 4 | none => 0
  GetPixelColor := fun m p x y old =>
    match m.at p with
    | some bm => if x < bm.width ∧ y < bm.height then (true, bm.stored (bm.pixel x y)) else (false, old)
    | none => (false, old)
  SetPixelColor := fun m p x y q =>
    match m.at p with
    | some bm =>
      if x < bm.width ∧ y < bm.height then
        (true, m.set (p - 1) (some { bm with pixels := ((x, y), bm.stored q) :: bm.pixels }))
      else (false, m)
    | none => (false, m)
  GetBits := fun _ p => p * 2 ^ 16
  GetRedMask := fun m p => if (m.at p).isSome then 0xFF0000 else 0
  GetGreenMask := fun m p => if (m.at p).isSome then 0x00FF00 else 0
  GetBlueMask := fun m p => if (m.at p).isSome then 0x0000FF else 0

/-- Single-precision arithmetic stood in for by exact rationals, for running
`getRatio` on explicit inputs. -/
def ratFloat : FloatOps ℚ where
  ofSizeT := fun n => (n : ℚ)
  div := fun a b => a / b

/-- The world after `Image(1, 1, 24)` at program start on the in-memory library:
address 1 is a 1x1 bitmap of 24 bits per pixel. -/
def world24 : World MemState :=
  (Image.ctorAllocate memCodec (State.init []).world 1 1 24).2

/-- The world after `Image(2, 2, 32)` at program start on the in-memory library:
address 1 is a 2x2 bitmap of 32 bits per pixel. -/
def world32 : World MemState :=
  (Image.ctorAllocate memCodec (State.init []).world 2 2 32).2

/-- One live object on the in-memory library: object 0 holds the 4x4 bitmap at
address 1. -/
def oneImage : State MemState :=
  (run memCodec (State.init []) [.alloc 4 4 24]).getD (State.init [])

/-- Two live objects on the in-memory library: object 0 holds the 2x2 bitmap at
address 1, object 1 holds the 1x1 bitmap at address 2. -/
def twoImages : State MemState :=
  (run memCodec (State.init []) [.alloc 2 2 32, .alloc 1 1 24]).getD (State.init [])

/-- A program that move-assigns onto an object that owns a bitmap: two 1x1
images are allocated, the second is moved into the first, both are destroyed. -/
def leakProgram : List Op :=
  [.alloc 1 1 24, .alloc 1 1 24, .moveAssign 0 1, .destroy 0, .destroy 1]

/-- A program that uses every lifetime operation: two allocations, a move
construction, a move assignment, a failing load, a save, and two destructions. -/
def ownershipProgram : List Op :=
  [.alloc 2 2 32, .alloc 1 1 24, .moveCtor 0, .moveAssign 1 2, .load "missing.png" 13 0,
   .save 1 "out.png" 13 0, .destroy 0, .destroy 1]

/-! ## Construction -/

/-- C3: Construction by allocation fails exactly when `FreeImage_Allocate`
returns a null bitmap. In that case, whatever the width, height and depth, the
exception thrown is `ImageCantAllocateExcept` with the default message, no
object is added and no existing object changes; otherwise nothing is thrown and
the new object holds the bitmap the library returned. -/
theorem ctorAllocate_fails_iff_null {σ : Type} (c : Codec σ) (s : State σ)
    (width height depth : Int) :
    ((∃ e, (Image.ctorAllocate c s.world width height depth).1 = .error e) ↔
      (c.Allocate (Image.atRequest c s.world).fi width height depth).1 = nullptr) ∧
    ((c.Allocate (Image.atRequest c s.world).fi width height depth).1 = nullptr →
      (Image.ctorAllocate c s.world width height depth).1
          = .error (.cantAllocate ⟨"Allocating image failed!"⟩) ∧
      ∃ s1, step c s (.alloc width height depth) = some s1 ∧ s1.objs = s.objs ∧
        s1.thrown = s.thrown ++ [.cantAllocate ⟨"Allocating image failed!"⟩]) ∧
    ((c.Allocate (Image.atRequest c s.world).fi width height depth).1 ≠ nullptr →
      (Image.ctorAllocate c s.world width height depth).1
          = .ok ⟨(c.Allocate (Image.atRequest c s.world).fi width height depth).1⟩ ∧
      ∃ s1, step c s (.alloc width height depth) = some s1 ∧ s1.thrown = s.thrown ∧
        s1.objs = s.objs ++
          [some ⟨(c.Allocate (Image.atRequest c s.world).fi width height depth).1⟩]) := by
  by_cases h : (c.Allocate (Image.atRequest c s.world).fi width height depth).1 = nullptr
  · simp [step, Image.ctorAllocate, h, ImageCantAllocateExcept.defaultMessage]
  · simp [step, Image.ctorAllocate, h]

/-- C4: Construction from a file fails exactly when `FreeImage_Load`, called
with the format, `path.c_str()` and the flags, returns a null bitmap; the
exception thrown is then `ImageCantLoadExept` holding the path given to the
constructor, and otherwise the object holds the bitmap returned.
The text that `what` assembles is the message, the line `Image path was : `
with the path, and a newline; but the address that `what` returns belongs to a
temporary string that is already destroyed, so no text can be read through it. -/
theorem ctorLoad_what_dangles {σ : Type} (c : Codec σ) (w : World σ) (path : String)
    (fif : FREE_IMAGE_FORMAT) (flags : Int) (m : Buffers) :
    ((∃ e, (Image.ctorLoad c w path fif flags).1 = .error e) ↔
      (c.Load (Image.atRequest c w).fi fif (c_str path) flags).1 = nullptr) ∧
    ((c.Load (Image.atRequest c w).fi fif (c_str path) flags).1 = nullptr →
      (Image.ctorLoad c w path fif flags).1
          = .error (.cantLoad ⟨path, "Loading image from fime Failed"⟩)) ∧
    ((c.Load (Image.atRequest c w).fi fif (c_str path) flags).1 ≠ nullptr →
      (Image.ctorLoad c w path fif flags).1
          = .ok ⟨(c.Load (Image.atRequest c w).fi fif (c_str path) flags).1⟩) ∧
    ImageCantLoadExept.streamText ⟨path, "Loading image from fime Failed"⟩
        = "Loading image from fime Failed" ++ "\nImage path was : " ++ path ++ "\n" ∧
    (ImageCantLoadExept.what ⟨path, "Loading image from fime Failed"⟩ m).2.read
        (ImageCantLoadExept.what ⟨path, "Loading image from fime Failed"⟩ m).1 = none := by
  refine ⟨?_, ?_, ?_, rfl, ?_⟩
  · by_cases h : (c.Load (Image.atRequest c w).fi fif (c_str path) flags).1 = nullptr
    · simp [Image.ctorLoad, h]
    · simp [Image.ctorLoad, h]
  · intro h
    simp [Image.ctorLoad, h, ImageCantLoadExept.defaultMessage]
  · intro h
    simp [Image.ctorLoad, h]
  · simp [ImageCantLoadExept.what, Buffers.read]

/-! ## Saving -/

/-- C8: Member `save` never throws and never fails an assertion, whatever the
object holds (a null bitmap included) and whatever the encoder answers: its
result is the same for every library, and the objects of the program are
afterwards what they were before. -/
theorem save_never_escalates {σ : Type} (c : Codec σ) (s : State σ) (h : Nat) (self : Image)
    (path : String) (fif : FREE_IMAGE_FORMAT) (flags : Int)
    (hlive : s.objs[h]? = some (some self)) :
    (Image.save c s.world self path fif flags).1 = .ok () ∧
    (∀ (c2 : Codec σ) (w2 : World σ),
      (Image.save c2 w2 self path fif flags).1 = (Image.save c s.world self path fif flags).1) ∧
    ∃ s1, step c s (.save h path fif flags) = some s1 ∧ s1.objs = s.objs ∧
      s1.thrown = s.thrown ∧ s1.objs[h]? = some (some self) := by
  refine ⟨rfl, fun _ _ => rfl, ?_⟩
  simp [step, hlive]

/-- Witness of C8: saving a freshly allocated 1x1 bitmap with the in-memory
library, whose encoder fails. -/
theorem save_never_escalates_witness :
    (Image.save memCodec (Image.ctorAllocate memCodec (State.init []).world 1 1 24).2 ⟨1⟩
        "out.png" 13 0).1 = .ok () ∧
    (∀ (c2 : Codec MemState) (w2 : World MemState),
      (Image.save c2 w2 ⟨1⟩ "out.png" 13 0).1
        = (Image.save memCodec (Image.ctorAllocate memCodec (State.init []).world 1 1 24).2 ⟨1⟩
            "out.png" 13 0).1) ∧
    ∃ s1, step memCodec ⟨(Image.ctorAllocate memCodec (State.init []).world 1 1 24).2,
        [some ⟨1⟩], []⟩ (.save 0 "out.png" 13 0) = some s1 ∧ s1.objs = [some ⟨1⟩] ∧
      s1.thrown = [] ∧ s1.objs[0]? = some (some ⟨1⟩) :=
  save_never_escalates memCodec
    ⟨(Image.ctorAllocate memCodec (State.init []).world 1 1 24).2, [some ⟨1⟩], []⟩
    0 ⟨1⟩ "out.png" 13 0 rfl

/-! ## Accessors -/

/-- C7: On an object whose bitmap is null, the accessors `type`, `colorType`,
`depth`, `width`, `height`, `pitch`, `pixelColor`, `setPixelColor`, `bits` and
`getRatio` fail the assertion `bitmap` before any library call. Member
`colorMask` has no assertion: it returns normally after passing the null bitmap
to `FreeImage_GetRedMask`, `FreeImage_GetGreenMask` and `FreeImage_GetBlueMask`. -/
theorem colorMask_passes_null {σ F : Type} (fl : FloatOps F) (c : Codec σ) (w : World σ)
    (x y : Nat) (q : RGBQUAD) :
    Image.type c w ⟨nullptr⟩ = (.error (.assertion "bitmap"), w) ∧
    Image.colorType c w ⟨nullptr⟩ = (.error (.assertion "bitmap"), w) ∧
    Image.depth c w ⟨nullptr⟩ = (.error (.assertion "bitmap"), w) ∧
    Image.width c w ⟨nullptr⟩ = (.error (.assertion "bitmap"), w) ∧
    Image.height c w ⟨nullptr⟩ = (.error (.assertion "bitmap"), w) ∧
    Image.pitch c w ⟨nullptr⟩ = (.error (.assertion "bitmap"), w) ∧
    Image.pixelColor c w ⟨nullptr⟩ x y q = (.error (.assertion "bitmap"), w) ∧
    Image.setPixelColor c w ⟨nullptr⟩ x y q = (.error (.assertion "bitmap"), w) ∧
    Image.bits c w ⟨nullptr⟩ = (.error (.assertion "bitmap"), w) ∧
    Image.getRatio fl c w ⟨nullptr⟩ = (.error (.assertion "bitmap"), w) ∧
    (Image.colorMask c w ⟨nullptr⟩).1
      = .ok ⟨c.GetRedMask w.fi nullptr % 2 ^ 32, c.GetGreenMask w.fi nullptr % 2 ^ 32,
             c.GetBlueMask w.fi nullptr % 2 ^ 32⟩ ∧
    (Image.colorMask c w ⟨nullptr⟩).2.calls
      = w.calls ++ [.getRedMask nullptr, .getGreenMask nullptr, .getBlueMask nullptr] := by
  refine ⟨rfl, rfl, rfl, rfl, rfl, rfl, rfl, rfl, rfl, rfl, rfl, ?_⟩
  simp [Image.colorMask, World.call]

/-- Member `pixelColor` on a non-null bitmap and in-bounds coordinates: both
bound assertions pass and the library is asked for the pixel at `(x, y)`. -/
theorem pixelColor_inside {σ : Type} (c : Codec σ) (w : World σ) (self : Image)
    (x y : Nat) (uninit : RGBQUAD) (hb : self.bitmap ≠ nullptr)
    (hx : x < c.GetWidth w.fi self.bitmap % 2 ^ 32)
    (hy : y < c.GetHeight w.fi self.bitmap % 2 ^ 32) :
    self.pixelColor c w x y uninit
      = (.ok (c.GetPixelColor w.fi self.bitmap x y uninit).2,
         { w with calls := w.calls ++ [.getWidth self.bitmap, .getHeight self.bitmap,
                                       .getPixelColor self.bitmap x y] }) := by
  norm_num at hx hy
  simp [Image.pixelColor, Image.width, Image.height, World.call, hb, hx, hy,
    Nat.mod_eq_of_lt (show x < 4294967296 by omega),
    Nat.mod_eq_of_lt (show y < 4294967296 by omega)]

/-- Member `setPixelColor` on a non-null bitmap and in-bounds coordinates: both
bound assertions pass and the library is told to write the pixel at `(x, y)`. -/
theorem setPixelColor_inside {σ : Type} (c : Codec σ) (w : World σ) (self : Image)
    (x y : Nat) (value : RGBQUAD) (hb : self.bitmap ≠ nullptr)
    (hx : x < c.GetWidth w.fi self.bitmap % 2 ^ 32)
    (hy : y < c.GetHeight w.fi self.bitmap % 2 ^ 32) :
    self.setPixelColor c w x y value
      = (.ok (),
         { w with fi := (c.SetPixelColor w.fi self.bitmap x y value).2,
                  calls := w.calls ++ [.getWidth self.bitmap, .getHeight self.bitmap,
                                       .setPixelColor self.bitmap x y value] }) := by
  norm_num at hx hy
  simp [Image.setPixelColor, Image.width, Image.height, World.call, hb, hx, hy,
    Nat.mod_eq_of_lt (show x < 4294967296 by omega),
    Nat.mod_eq_of_lt (show y < 4294967296 by omega)]

/-- C10: On a non-null bitmap, with `x < width()` and `y < height()` the members
`pixelColor` and `setPixelColor` pass their assertions and call the library at
exactly `(x, y)`: the conversion to `unsigned` changes neither coordinate,
since both dimensions are `unsigned` values. When `x >= width()` or
`y >= height()` both members fail an assertion and make no per-pixel library
call, leaving the library state as it was. -/
theorem pixel_coordinates_exact {σ : Type} (c : Codec σ) (w : World σ) (self : Image)
    (x y : Nat) (value uninit : RGBQUAD) (hb : self.bitmap ≠ nullptr) :
    (x < c.GetWidth w.fi self.bitmap % 2 ^ 32 → y < c.GetHeight w.fi self.bitmap % 2 ^ 32 →
      x % 2 ^ 32 = x ∧ y % 2 ^ 32 = y ∧
      (self.pixelColor c w x y uninit).1
        = .ok (c.GetPixelColor w.fi self.bitmap x y uninit).2 ∧
      (self.pixelColor c w x y uninit).2.calls
        = w.calls ++ [.getWidth self.bitmap, .getHeight self.bitmap,
                      .getPixelColor self.bitmap x y] ∧
      (self.setPixelColor c w x y value).1 = .ok () ∧
      (self.setPixelColor c w x y value).2.fi = (c.SetPixelColor w.fi self.bitmap x y value).2 ∧
      (self.setPixelColor c w x y value).2.calls
        = w.calls ++ [.getWidth self.bitmap, .getHeight self.bitmap,
                      .setPixelColor self.bitmap x y value]) ∧
    (¬ (x < c.GetWidth w.fi self.bitmap % 2 ^ 32 ∧ y < c.GetHeight w.fi self.bitmap % 2 ^ 32) →
      (∃ cond extra, (self.pixelColor c w x y uninit).1 = .error (.assertion cond) ∧
        (self.pixelColor c w x y uninit).2.fi = w.fi ∧
        (self.pixelColor c w x y uninit).2.calls = w.calls ++ extra ∧
        ∀ k ∈ extra, k.isPixel = false) ∧
      (∃ cond extra, (self.setPixelColor c w x y value).1 = .error (.assertion cond) ∧
        (self.setPixelColor c w x y value).2.fi = w.fi ∧
        (self.setPixelColor c w x y value).2.calls = w.calls ++ extra ∧
        ∀ k ∈ extra, k.isPixel = false)) := by
  constructor
  · intro hx hy
    have hx32 : x % 2 ^ 32 = x :=
      Nat.mod_eq_of_lt (lt_trans hx (Nat.mod_lt _ (by norm_num)))
    have hy32 : y % 2 ^ 32 = y :=
      Nat.mod_eq_of_lt (lt_trans hy (Nat.mod_lt _ (by norm_num)))
    refine ⟨hx32, hy32, ?_⟩
    rw [pixelColor_inside c w self x y uninit hb hx hy,
      setPixelColor_inside c w self x y value hb hx hy]
    exact ⟨rfl, rfl, rfl, rfl, rfl⟩
  · intro hout
    by_cases hx : x < c.GetWidth w.fi self.bitmap % 2 ^ 32
    · have hy : ¬ y < c.GetHeight w.fi self.bitmap % 2 ^ 32 := fun hy => hout ⟨hx, hy⟩
      norm_num at hx hy
      refine ⟨⟨"y < height()", [.getWidth self.bitmap, .getHeight self.bitmap], ?_⟩,
        ⟨"y < height()", [.getWidth self.bitmap, .getHeight self.bitmap], ?_⟩⟩ <;>
      simp [Image.pixelColor, Image.setPixelColor, Image.width, Image.height, World.call, hb,
        hx, hy, Call.isPixel]
    · norm_num at hx
      refine ⟨⟨"x < width()", [.getWidth self.bitmap], ?_⟩,
        ⟨"x < width()", [.getWidth self.bitmap], ?_⟩⟩ <;>
      simp [Image.pixelColor, Image.setPixelColor, Image.width, World.call, hb, hx, Call.isPixel]

/-- Witness of C10: pixel (1, 1) of a 2x2 bitmap of the in-memory library. -/
theorem pixel_coordinates_exact_witness :
    (Image.pixelColor memCodec world32 ⟨1⟩ 1 1 ⟨9, 9, 9, 9⟩).2.calls
      = world32.calls ++ [.getWidth 1, .getHeight 1, .getPixelColor 1 1 1] :=
  ((pixel_coordinates_exact memCodec world32 ⟨1⟩ 1 1 ⟨0, 0, 0, 0⟩ ⟨9, 9, 9, 9⟩
      (by decide)).1 (by decide) (by decide)).2.2.2.1

/-- C1 as stated fails: on a 1x1 bitmap of 24 bits per pixel (the default depth
of the constructor) held by a non-null handle, writing the color with reserved
channel 255 at the in-bounds pixel (0, 0) and reading it back gives reserved
channel 0. -/
theorem roundtrip_loses_reserved_channel :
    (Image.mk 1).bitmap ≠ nullptr ∧
    (Image.width memCodec world24 ⟨1⟩).1 = .ok 1 ∧
    (Image.height memCodec world24 ⟨1⟩).1 = .ok 1 ∧
    (Image.setPixelColor memCodec world24 ⟨1⟩ 0 0 ⟨10, 20, 30, 255⟩).1 = .ok () ∧
    (Image.pixelColor memCodec
        (Image.setPixelColor memCodec world24 ⟨1⟩ 0 0 ⟨10, 20, 30, 255⟩).2 ⟨1⟩ 0 0
        ⟨0, 0, 0, 0⟩).1 = .ok ⟨10, 20, 30, 0⟩ ∧
    (Image.pixelColor memCodec
        (Image.setPixelColor memCodec world24 ⟨1⟩ 0 0 ⟨10, 20, 30, 255⟩).2 ⟨1⟩ 0 0
        ⟨0, 0, 0, 0⟩).1 ≠ .ok ⟨10, 20, 30, 255⟩ := by
  decide

/-- C1, amended: on a non-null bitmap and in-bounds coordinates, if the library
stores the color at that pixel (`StoresPixel`: writing keeps the dimensions and
reading back yields the color written), then `setPixelColor(x, y, c)` returns
normally and `pixelColor(x, y)` called next returns `c` in every channel. -/
theorem setPixelColor_then_pixelColor {σ : Type} (c : Codec σ) (w : World σ) (self : Image)
    (x y : Nat) (col : RGBQUAD) (hb : self.bitmap ≠ nullptr)
    (hx : x < c.GetWidth w.fi self.bitmap % 2 ^ 32)
    (hy : y < c.GetHeight w.fi self.bitmap % 2 ^ 32)
    (hst : StoresPixel c w.fi self.bitmap x y col) :
    (self.setPixelColor c w x y col).1 = .ok () ∧
    ∀ uninit, (self.pixelColor c (self.setPixelColor c w x y col).2 x y uninit).1 = .ok col := by
  rw [setPixelColor_inside c w self x y col hb hx hy]
  refine ⟨rfl, fun uninit => ?_⟩
  rw [pixelColor_inside c _ self x y uninit hb]
  · simp [hst.read_back uninit]
  · simpa [hst.width_eq] using hx
  · simpa [hst.height_eq] using hy

/-- Witness of C1 (amended): pixel (1, 0) of a 2x2 bitmap of 32 bits per pixel
in the in-memory library, which stores all four channels. -/
theorem setPixelColor_then_pixelColor_witness :
    (Image.setPixelColor memCodec world32 ⟨1⟩ 1 0 ⟨10, 20, 30, 255⟩).1 = .ok () ∧
    ∀ uninit, (Image.pixelColor memCodec
        (Image.setPixelColor memCodec world32 ⟨1⟩ 1 0 ⟨10, 20, 30, 255⟩).2 ⟨1⟩ 1 0 uninit).1
      = .ok ⟨10, 20, 30, 255⟩ :=
  setPixelColor_then_pixelColor memCodec world32 ⟨1⟩ 1 0 ⟨10, 20, 30, 255⟩ (by decide)
    (by decide) (by decide) ⟨by decide, by decide, fun _ => rfl⟩

/-! ## Ownership -/

/-- C2: Let `src` be a live object holding the bitmap of `other`. Move
construction from `src` (which needs no other object) creates a new object
holding that bitmap and leaves `src` holding null. Move assignment from `src`
to any other live object `dst` leaves `dst` holding that bitmap and `src`
holding null. Neither touches the world or any third object, and each of the
nine accessors called on the destination afterwards returns what it returned
on the source before. -/
theorem move_transfers_bitmap {σ F : Type} (fl : FloatOps F) (c : Codec σ) (s : State σ)
    (src : Nat) (other : Image) (hsrc : s.objs[src]? = some (some other)) :
    (∃ s1, step c s (.moveCtor src) = some s1 ∧
      s1.objs = s.objs.set src (some ⟨nullptr⟩) ++ [some ⟨other.bitmap⟩] ∧
      s1.objs[s.objs.length]? = some (some ⟨other.bitmap⟩) ∧
      s1.objs[src]? = some (some ⟨nullptr⟩) ∧
      s1.world = s.world ∧
      ∀ d x y u, s1.objs[s.objs.length]? = some (some d) →
        d.accessors fl c s1.world x y u = other.accessors fl c s.world x y u) ∧
    (∀ (dst : Nat) (old : Image), s.objs[dst]? = some (some old) → dst ≠ src →
      ∃ s1, step c s (.moveAssign dst src) = some s1 ∧
        s1.objs = (s.objs.set dst (some ⟨other.bitmap⟩)).set src (some ⟨nullptr⟩) ∧
        s1.objs[dst]? = some (some ⟨other.bitmap⟩) ∧
        s1.objs[src]? = some (some ⟨nullptr⟩) ∧
        s1.world = s.world ∧
        ∀ d x y u, s1.objs[dst]? = some (some d) →
          d.accessors fl c s1.world x y u = other.accessors fl c s.world x y u) := by
  have hs : src < s.objs.length := by
    rcases Nat.lt_or_ge src s.objs.length with h | h
    · exact h
    · rw [List.getElem?_eq_none h] at hsrc; cases hsrc
  constructor
  · refine ⟨{ s with objs := s.objs.set src (some ⟨nullptr⟩) ++ [some ⟨other.bitmap⟩] },
      ?_, rfl, ?_, ?_, rfl, ?_⟩
    · simp [step, hsrc, Image.ctorMove]
    · simp [List.getElem?_append_right]
    · simp [List.getElem?_append_left, List.getElem?_set, hs]
    · intro d x y u hget
      have hdv : d = other := by
        simp [List.getElem?_append_right] at hget
        rw [← hget]
      rw [hdv]
  · intro dst old hdst hne
    have hd : dst < s.objs.length := by
      rcases Nat.lt_or_ge dst s.objs.length with h | h
      · exact h
      · rw [List.getElem?_eq_none h] at hdst; cases hdst
    refine ⟨{ s with objs := (s.objs.set dst (some ⟨other.bitmap⟩)).set src (some ⟨nullptr⟩) },
      ?_, rfl, ?_, ?_, rfl, ?_⟩
    · simp [step, assignMove, hdst, hsrc]
    · simp [List.getElem?_set, hne, hd, Ne.symm hne]
    · simp [List.getElem?_set, hs]
    · intro d x y u hget
      have hdv : d = other := by
        simp [List.getElem?_set, hne, hd, Ne.symm hne] at hget
        rw [← hget]
      rw [hdv]

/-- Witness of C2 on the in-memory library: move construction from the only
object of a program (`A` constructed, then `B = move(A)`), and move assignment
of object 1 into object 0 of a program with two objects. -/
theorem move_transfers_bitmap_witness :
    (∃ s1, step memCodec oneImage (.moveCtor 0) = some s1 ∧
      s1.objs = [some ⟨nullptr⟩, some ⟨1⟩] ∧
      ∀ x y u, Image.accessors ratFloat memCodec s1.world ⟨1⟩ x y u
        = Image.accessors ratFloat memCodec oneImage.world ⟨1⟩ x y u) ∧
    (∃ s1, step memCodec twoImages (.moveAssign 0 1) = some s1 ∧
      s1.objs = [some ⟨2⟩, some ⟨nullptr⟩] ∧
      ∀ x y u, Image.accessors ratFloat memCodec s1.world ⟨2⟩ x y u
        = Image.accessors ratFloat memCodec twoImages.world ⟨2⟩ x y u) :=
  And.intro
    (by
      obtain ⟨s1, h1, h2, h3, _, _, h6⟩ :=
        (move_transfers_bitmap ratFloat memCodec oneImage 0 ⟨1⟩ (by decide)).1
      exact ⟨s1, h1, h2.trans (by decide), fun x y u => h6 ⟨1⟩ x y u h3⟩)
    (by
      obtain ⟨s1, h1, h2, h3, _, _, h6⟩ :=
        (move_transfers_bitmap ratFloat memCodec twoImages 1 ⟨2⟩ (by decide)).2 0 ⟨1⟩
          (by decide) (by decide)
      exact ⟨s1, h1, h2.trans (by decide), fun x y u => h6 ⟨2⟩ x y u h3⟩)

/-! ## One-time initialisation -/

/-- The check before the request of a constructor does nothing once the flag is set. -/
theorem atRequest_initialized {σ : Type} (c : Codec σ) (w : World σ)
    (hflag : w.freeimageInitialized = true) : Image.atRequest c w = w := by
  simp [Image.atRequest, hflag]

/-- The check before the request of a constructor always leaves the flag set. -/
theorem atRequest_flag {σ : Type} (c : Codec σ) (w : World σ) :
    (Image.atRequest c w).freeimageInitialized = true := by
  unfold Image.atRequest
  split
  · rfl
  · next h => simpa using h

/-- A constructor call always runs: after the check of the flag it logs its
request to the library, followed at most by calls that are not part of the
initialisation. -/
theorem ctor_step {σ : Type} (c : Codec σ) (s : State σ) (k : CtorCall) :
    ∃ req tail s1, step c s k.toOp = some s1 ∧
      s1.world.freeimageInitialized = true ∧
      s1.world.calls = (Image.atRequest c s.world).calls ++ req :: tail ∧
      k.isRequest req = true ∧ req.isInit = false ∧ ∀ e ∈ tail, e.isInit = false := by
  have hf := atRequest_flag c s.world
  cases k with
  | alloc width height depth =>
    refine ⟨.allocate width height depth
      (c.Allocate (Image.atRequest c s.world).fi width height depth).1, [], ?_⟩
    by_cases h : (c.Allocate (Image.atRequest c s.world).fi width height depth).1 = nullptr <;>
      simp [CtorCall.toOp, step, Image.ctorAllocate, h, hf, CtorCall.isRequest, Call.isInit]
  | load path fif flags =>
    by_cases h : (c.Load (Image.atRequest c s.world).fi fif (c_str path) flags).1 = nullptr
    · refine ⟨.load fif (c_str path) flags
        (c.Load (Image.atRequest c s.world).fi fif (c_str path) flags).1, [], ?_⟩
      simp [CtorCall.toOp, step, Image.ctorLoad, h, hf, CtorCall.isRequest, Call.isInit]
    · refine ⟨.load fif (c_str path) flags
        (c.Load (Image.atRequest c s.world).fi fif (c_str path) flags).1,
        [.getFormatFromFIF fif], ?_⟩
      simp [CtorCall.toOp, step, Image.ctorLoad, World.call, h, hf, CtorCall.isRequest,
        Call.isInit]

/-- No operation resets `freeimageInitialized`. -/
theorem step_keeps_initialized {σ : Type} (c : Codec σ) (s s1 : State σ) (op : Op)
    (hflag : s.world.freeimageInitialized = true) (hstep : step c s op = some s1) :
    s1.world.freeimageInitialized = true := by
  cases op with
  | alloc width height depth =>
    obtain ⟨_, _, s2, h2, hf2, _⟩ := ctor_step c s (.alloc width height depth)
    simp only [CtorCall.toOp] at h2
    rw [hstep] at h2; cases h2; exact hf2
  | load path fif flags =>
    obtain ⟨_, _, s2, h2, hf2, _⟩ := ctor_step c s (.load path fif flags)
    simp only [CtorCall.toOp] at h2
    rw [hstep] at h2; cases h2; exact hf2
  | moveCtor src =>
    simp only [step] at hstep
    split at hstep
    · simp at hstep; subst hstep; exact hflag
    · cases hstep
  | moveAssign dst src =>
    simp only [step] at hstep
    split at hstep
    · simp at hstep; subst hstep; exact hflag
    · cases hstep
  | destroy h =>
    simp only [step] at hstep
    split at hstep
    · simp at hstep; subst hstep
      simp only [Image.dtor]
      split <;> exact hflag
    · cases hstep
  | save h path fif flags =>
    simp only [step] at hstep
    split at hstep
    · simp at hstep; subst hstep; exact hflag
    · cases hstep

/-- No program resets `freeimageInitialized`. -/
theorem run_keeps_initialized {σ : Type} (c : Codec σ) (ops : List Op) (s s1 : State σ)
    (hflag : s.world.freeimageInitialized = true) (hrun : run c s ops = some s1) :
    s1.world.freeimageInitialized = true := by
  induction ops generalizing s with
  | nil => simp [run] at hrun; subst hrun; exact hflag
  | cons op ops ih =>
    simp only [run] at hrun
    split at hrun
    · next s2 hs2 => exact ih s2 (step_keeps_initialized c s s2 op hflag hs2) hrun
    · cases hrun

/-- Once the flag is set, a sequence of constructor calls runs to the end
without any initialisation call. -/
theorem run_ctors_initialized {σ : Type} (c : Codec σ) (ks : List CtorCall) (s : State σ)
    (hflag : s.world.freeimageInitialized = true) :
    ∃ s1 extra, run c s (ks.map CtorCall.toOp) = some s1 ∧
      s1.world.calls = s.world.calls ++ extra ∧ ∀ e ∈ extra, e.isInit = false := by
  induction ks generalizing s with
  | nil => exact ⟨s, [], rfl, by simp, by simp⟩
  | cons k ks ih =>
    obtain ⟨req, tail, s2, h2, hf2, hc2, _, hreq, htail⟩ := ctor_step c s k
    obtain ⟨s3, extra, h3, hc3, hex⟩ := ih s2 hf2
    rw [atRequest_initialized c s.world hflag] at hc2
    refine ⟨s3, req :: tail ++ extra, ?_, ?_, ?_⟩
    · simp [run, h2, h3]
    · rw [hc3, hc2]; simp
    · intro e he
      simp only [List.cons_append, List.mem_cons, List.mem_append] at he
      rcases he with rfl | he | he
      · exact hreq
      · exact htail e he
      · exact hex e he

/-- C9: Starting with `freeimageInitialized` false, every non-empty sequence of
calls to the two constructors (succeeding or failing) runs to the end with a
log that begins with the two calls of `initFreeImage`, followed by the request
of the first constructor call and by no further initialisation call; the flag
is then set, and no program run afterwards resets it. -/
theorem init_runs_once {σ : Type} (c : Codec σ) (fi0 : σ) (first : CtorCall)
    (rest : List CtorCall) :
    ∃ s req later, run c (State.init fi0) ((first :: rest).map CtorCall.toOp) = some s ∧
      s.world.calls = .getCopyrightMessage :: .setOutputMessage :: req :: later ∧
      first.isRequest req = true ∧
      (∀ e ∈ req :: later, e.isInit = false) ∧
      s.world.calls.count .setOutputMessage = 1 ∧
      s.world.freeimageInitialized = true ∧
      ∀ (ops : List Op) (s1 : State σ), run c s ops = some s1 →
        s1.world.freeimageInitialized = true := by
  obtain ⟨req, tail, s2, h2, hf2, hc2, hisreq, hreq, htail⟩ := ctor_step c (State.init fi0) first
  obtain ⟨s3, extra, h3, hc3, hex⟩ := run_ctors_initialized c rest s2 hf2
  have hlater : ∀ e ∈ req :: (tail ++ extra), e.isInit = false := by
    intro e he
    simp only [List.mem_cons, List.mem_append] at he
    rcases he with rfl | he | he
    · exact hreq
    · exact htail e he
    · exact hex e he
  have hcalls : s3.world.calls
      = .getCopyrightMessage :: .setOutputMessage :: req :: (tail ++ extra) := by
    rw [hc3, hc2]
    simp [Image.atRequest, Image.initFreeImage, World.call, State.init]
  refine ⟨s3, req, tail ++ extra, ?_, hcalls, hisreq, hlater, ?_, ?_, ?_⟩
  · simp [run, h2, h3]
  · rw [hcalls]
    have hnone : (req :: (tail ++ extra)).count Call.setOutputMessage = 0 := by
      rw [List.count_eq_zero]
      intro hmem
      have := hlater _ hmem
      simp [Call.isInit] at this
    rw [List.count_cons, List.count_cons, hnone]
    simp
  · exact run_keeps_initialized c (rest.map CtorCall.toOp) s2 s3 hf2 h3
  · intro ops s1 hrun
    exact run_keeps_initialized c ops s3 s1
      (run_keeps_initialized c (rest.map CtorCall.toOp) s2 s3 hf2 h3) hrun

/-! ## Exclusive ownership and release -/

/-- Overwriting one position of a list changes the number of occurrences of `b`
by the occurrence removed and the occurrence added. -/
theorem count_set_add {α : Type} [BEq α] [LawfulBEq α] (l : List α) (i : Nat) (a b : α)
    (h : i < l.length) :
    (l.set i a).count b + (if l[i] == b then 1 else 0)
      = l.count b + (if a == b then 1 else 0) := by
  induction l generalizing i with
  | nil => simp at h
  | cons x l ih =>
    cases i with
    | zero =>
      simp only [List.set_cons_zero, List.count_cons, List.getElem_cons_zero]
      omega
    | succ i =>
      have h1 : i < l.length := by simpa using h
      have := ih i h1
      simp only [List.set_cons_succ, List.count_cons, List.getElem_cons_succ]
      omega

/-- A value found at two different positions of a list occurs at least twice. -/
theorem two_le_count_of_get {α : Type} [BEq α] [LawfulBEq α] (l : List α) (i j : Nat) (a : α)
    (hij : i < j) (hi : l[i]? = some a) (hj : l[j]? = some a) : 2 ≤ l.count a := by
  induction l generalizing i j with
  | nil => simp at hi
  | cons x l ih =>
    cases j with
    | zero => omega
    | succ j =>
      simp only [List.getElem?_cons_succ] at hj
      cases i with
      | zero =>
        simp only [List.getElem?_cons_zero, Option.some.injEq] at hi
        subst hi
        have hmem : x ∈ l := List.getElem?_mem hj
        have := List.count_pos_iff.mpr hmem
        simp only [List.count_cons_self]
        omega
      | succ i =>
        simp only [List.getElem?_cons_succ] at hi
        have := ih i j (by omega) hi hj
        simp only [List.count_cons]
        omega

/-- In a log that satisfies the allocator contract, a non-null bitmap has been
handed out at most once more than it has been unloaded. -/
theorem freshRev_outstanding (l : List Call) (hfresh : freshRev l = true) (b : FIBITMAP)
    (hb : b ≠ nullptr) : handedOut l b ≤ released l b + 1 := by
  induction l with
  | nil => simp [handedOut, released]
  | cons c earlier ih =>
    simp only [freshRev, Bool.and_eq_true] at hfresh
    have h1 := ih hfresh.2
    have h0 := hfresh.1
    simp only [handedOut, released, List.countP_cons, List.count_cons] at h1 ⊢
    by_cases hc : c.result = some b
    · rw [hc] at h0
      simp only [Bool.or_eq_true, decide_eq_true_eq, hb, false_or] at h0
      simp only [handedOut, released] at h0
      simp only [hc, decide_True, if_true]
      omega
    · simp only [hc, decide_False, Bool.false_eq_true, if_false]
      omega

/-- Hand-outs add up over concatenated logs. -/
theorem handedOut_append (xs ys : List Call) (b : FIBITMAP) :
    handedOut (xs ++ ys) b = handedOut xs b + handedOut ys b := by
  simp [handedOut, List.countP_append]

/-- Unloads add up over concatenated logs. -/
theorem released_append (xs ys : List Call) (b : FIBITMAP) :
    released (xs ++ ys) b = released xs b + released ys b := by
  simp [released, List.count_append]

/-- Hand-outs of a log with one more call in front. -/
theorem handedOut_cons (c : Call) (cs : List Call) (b : FIBITMAP) :
    handedOut (c :: cs) b = handedOut cs b + if c.result = some b then 1 else 0 := by
  simp [handedOut, List.countP_cons]

/-- Unloads of a log with one more call in front. -/
theorem released_cons (c : Call) (cs : List Call) (b : FIBITMAP) :
    released (c :: cs) b = released cs b + if c = .unload b then 1 else 0 := by
  simp [released, List.count_cons]

/-- The empty log hands out nothing. -/
theorem handedOut_nil (b : FIBITMAP) : handedOut [] b = 0 := rfl

/-- The empty log unloads nothing. -/
theorem released_nil (b : FIBITMAP) : released [] b = 0 := rfl

/-- The check of the flag logs no hand-out and no unload. -/
theorem atRequest_calls {σ : Type} (c : Codec σ) (w : World σ) :
    ∃ pre, (Image.atRequest c w).calls = w.calls ++ pre ∧
      (∀ b, handedOut pre b = 0) ∧ ∀ b, released pre b = 0 := by
  cases hf : w.freeimageInitialized
  · refine ⟨[.getCopyrightMessage, .setOutputMessage], ?_, ?_, ?_⟩
    · simp [Image.atRequest, Image.initFreeImage, World.call, hf]
    · intro b; simp [handedOut, Call.result]
    · intro b; simp [released]
  · exact ⟨[], by simp [Image.atRequest, hf], fun _ => rfl, fun _ => rfl⟩

/-- A constructor call always runs; it logs one hand-out, of the bitmap `ret` the
library returned, and no unload, and it creates an object holding `ret` unless
`ret` is null. -/
theorem ctor_step_counts {σ : Type} (c : Codec σ) (s : State σ) (k : CtorCall) :
    ∃ ret s1, step c s k.toOp = some s1 ∧
      (∀ b, handedOut s1.world.calls b
        = handedOut s.world.calls b + if ret = b then 1 else 0) ∧
      (∀ b, released s1.world.calls b = released s.world.calls b) ∧
      s1.objs = (if ret = nullptr then s.objs else s.objs ++ [some ⟨ret⟩]) := by
  obtain ⟨pre, hpre, hpre1, hpre2⟩ := atRequest_calls c s.world
  cases k with
  | alloc width height depth =>
    refine ⟨(c.Allocate (Image.atRequest c s.world).fi width height depth).1, ?_⟩
    by_cases h : (c.Allocate (Image.atRequest c s.world).fi width height depth).1 = nullptr <;>
      simp [CtorCall.toOp, step, Image.ctorAllocate, h, hpre, handedOut_append,
        released_append, hpre1, hpre2, handedOut_cons, released_cons, Call.result] <;>
      simp [handedOut, released]
  | load path fif flags =>
    refine ⟨(c.Load (Image.atRequest c s.world).fi fif (c_str path) flags).1, ?_⟩
    by_cases h : (c.Load (Image.atRequest c s.world).fi fif (c_str path) flags).1 = nullptr <;>
      simp [CtorCall.toOp, step, Image.ctorLoad, World.call, h, hpre, handedOut_append,
        released_append, hpre1, hpre2, handedOut_cons, released_cons, Call.result] <;>
      simp [handedOut, released]

/-- A position that holds a value is inside the list. -/
theorem lt_length_of_get {α : Type} (l : List α) (i : Nat) (a : α) (h : l[i]? = some a) :
    ∃ hi : i < l.length, l[i] = a :=
  List.getElem?_eq_some.mp h

/-- Overwriting one object changes the number of holders of `b` by the holder
removed and the holder added. -/
theorem heldCount_set (objs : List (Option Image)) (i : Nat) (cur : Option Image)
    (new : Option Image) (b : FIBITMAP) (h : objs[i]? = some cur) :
    heldCount (objs.set i new) b + (if cur = some ⟨b⟩ then 1 else 0)
      = heldCount objs b + (if new = some ⟨b⟩ then 1 else 0) := by
  obtain ⟨hi, hcur⟩ := lt_length_of_get objs i cur h
  have := count_set_add objs i new (some ⟨b⟩) hi
  rw [hcur] at this
  simpa [heldCount] using this

/-- Creating one object adds it to the holders of its bitmap. -/
theorem heldCount_append_one (objs : List (Option Image)) (o : Option Image) (b : FIBITMAP) :
    heldCount (objs ++ [o]) b = heldCount objs b + (if o = some ⟨b⟩ then 1 else 0) := by
  simp [heldCount, List.count_append, List.count_cons]

/-- Every operation keeps the ownership bound: for a non-null bitmap, the live
objects holding it plus the unloads of it never exceed its hand-outs. -/
theorem step_owned {σ : Type} (c : Codec σ) (s s1 : State σ) (op : Op)
    (hinv : ∀ b, b ≠ nullptr →
      heldCount s.objs b + released s.world.calls b ≤ handedOut s.world.calls b)
    (hstep : step c s op = some s1) :
    ∀ b, b ≠ nullptr →
      heldCount s1.objs b + released s1.world.calls b ≤ handedOut s1.world.calls b := by
  intro b hb
  have h0 := hinv b hb
  have hctor : ∀ k : CtorCall, step c s k.toOp = some s1 →
      heldCount s1.objs b + released s1.world.calls b ≤ handedOut s1.world.calls b := by
    intro k hk
    obtain ⟨ret, s2, h2, hho, hrel, hobjs⟩ := ctor_step_counts c s k
    rw [hk] at h2; cases h2
    rw [hho b, hrel b, hobjs]
    by_cases hret : ret = nullptr
    · rw [if_pos hret]; omega
    · rw [if_neg hret, heldCount_append_one]
      have : (some (Image.mk ret) = some ⟨b⟩) ↔ ret = b := by simp
      simp only [this]
      omega
  cases op with
  | alloc width height depth => exact hctor (.alloc width height depth) hstep
  | load path fif flags => exact hctor (.load path fif flags) hstep
  | moveCtor src =>
    simp only [step] at hstep
    split at hstep
    · next other hsrc =>
      simp only [Option.some.injEq] at hstep
      subst hstep
      cases other with
      | mk ob =>
        have hset := heldCount_set s.objs src (some ⟨ob⟩) (some ⟨nullptr⟩) b hsrc
        have hne : ¬ (some (Image.mk nullptr) = some ⟨b⟩) := by
          simp; exact fun h => hb h.symm
        rw [if_neg hne] at hset
        simp only [heldCount_append_one, Image.ctorMove]
        omega
    · cases hstep
  | moveAssign dst src =>
    simp only [step] at hstep
    split at hstep
    · next objs hobjs =>
      simp only [Option.some.injEq] at hstep
      subst hstep
      simp only [assignMove] at hobjs
      split at hobjs
      · next old other hdst hsrc =>
        simp only [Option.some.injEq] at hobjs
        subst hobjs
        have hset1 := heldCount_set s.objs dst (some old) (some ⟨other.bitmap⟩) b hdst
        have hsrc1 : (s.objs.set dst (some ⟨other.bitmap⟩))[src]? = some (some ⟨other.bitmap⟩) := by
          obtain ⟨hd, _⟩ := lt_length_of_get s.objs dst _ hdst
          by_cases hds : dst = src
          · subst hds; simp [hd]
          · simp [List.getElem?_set, hds, hsrc]
        have hset2 := heldCount_set (s.objs.set dst (some ⟨other.bitmap⟩)) src
          (some ⟨other.bitmap⟩) (some ⟨nullptr⟩) b hsrc1
        have hne : ¬ (some (Image.mk nullptr) = some ⟨b⟩) := by
          simp; exact fun h => hb h.symm
        rw [if_neg hne] at hset2
        simp only
        omega
      · cases hobjs
    · cases hstep
  | destroy h =>
    simp only [step] at hstep
    split at hstep
    · next self hself =>
      simp only [Option.some.injEq] at hstep
      subst hstep
      have hset := heldCount_set s.objs h (some self) none b hself
      simp only [if_false, reduceCtorEq] at hset
      have heq : (some self = some (Image.mk b)) ↔ self.bitmap = b := by
        cases self; simp
      simp only [heq] at hset
      simp only [Image.dtor]
      by_cases hnull : self.bitmap = nullptr
      · have hsb : ¬ self.bitmap = b := fun h => hb (h ▸ hnull)
        simp only [hnull, ne_eq, not_true_eq_false, if_false]
        rw [if_neg hsb] at hset
        omega
      · simp only [ne_eq, hnull, not_false_eq_true, if_true, released_append, handedOut_append,
          released_cons, handedOut_cons, Call.result]
        have : (Call.unload self.bitmap = Call.unload b) ↔ self.bitmap = b := by simp
        simp only [this, released_nil, handedOut_nil, reduceCtorEq, if_false]
        omega
    · cases hstep
  | save h path fif flags =>
    simp only [step] at hstep
    split at hstep
    · simp only [Option.some.injEq] at hstep
      subst hstep
      simp only [Image.save, released_append, handedOut_append, released_cons, handedOut_cons,
        Call.result, released_nil, handedOut_nil, reduceCtorEq, if_false]
      omega
    · cases hstep

/-- Every program keeps the ownership bound. -/
theorem run_owned {σ : Type} (c : Codec σ) (ops : List Op) (s s1 : State σ)
    (hinv : ∀ b, b ≠ nullptr →
      heldCount s.objs b + released s.world.calls b ≤ handedOut s.world.calls b)
    (hrun : run c s ops = some s1) :
    ∀ b, b ≠ nullptr →
      heldCount s1.objs b + released s1.world.calls b ≤ handedOut s1.world.calls b := by
  induction ops generalizing s with
  | nil => simp [run] at hrun; subst hrun; exact hinv
  | cons op ops ih =>
    simp only [run] at hrun
    split at hrun
    · next s2 hs2 => exact ih s2 (step_owned c s s2 op hinv hs2) hrun
    · cases hrun

/-- The allocator contract bounds the hand-outs of a non-null bitmap by its
unloads plus one. -/
theorem fresh_outstanding (cs : List Call) (hfresh : FreshAnswers cs) (b : FIBITMAP)
    (hb : b ≠ nullptr) : handedOut cs b ≤ released cs b + 1 := by
  have h := freshRev_outstanding cs.reverse hfresh b hb
  simpa [handedOut, released] using h

/-- C6: In every state reached from the start of the program by constructions,
moves, destructions and saves, with a library that never hands out a bitmap
that is still outstanding, no non-null bitmap is held by two different live
objects; and no bitmap has been passed to `FreeImage_Unload` more often than it
was handed out, a bitmap being outstanding at most once at any time. -/
theorem exclusive_ownership {σ : Type} (c : Codec σ) (fi0 : σ) (prog : List Op) (s : State σ)
    (hrun : run c (State.init fi0) prog = some s) (hfresh : FreshAnswers s.world.calls) :
    (∀ (i j : Nat) (b : FIBITMAP), i ≠ j → s.objs[i]? = some (some (Image.mk b)) →
      s.objs[j]? = some (some (Image.mk b)) → b = nullptr) ∧
    (∀ b, b ≠ nullptr → released s.world.calls b ≤ handedOut s.world.calls b ∧
      handedOut s.world.calls b ≤ released s.world.calls b + 1) := by
  have hinv := run_owned c prog (State.init fi0) s
    (by intro b _; simp [State.init, heldCount, released, handedOut]) hrun
  constructor
  · intro i j b hij hi hj
    by_contra hb
    have h1 := hinv b hb
    have h2 := fresh_outstanding s.world.calls hfresh b hb
    have h3 : 2 ≤ heldCount s.objs b := by
      rcases Nat.lt_or_gt_of_ne hij with h | h
      · exact two_le_count_of_get s.objs i j _ h hi hj
      · exact two_le_count_of_get s.objs j i _ h hj hi
    omega
  · intro b hb
    have h1 := hinv b hb
    have h2 := fresh_outstanding s.world.calls hfresh b hb
    omega

/-- Witness of C6: a program over the in-memory library, which never reuses an
address. At its end objects 0 and 1 are destroyed and object 2 is moved-from. -/
theorem exclusive_ownership_witness :
    ∃ s, run memCodec (State.init []) ownershipProgram = some s ∧
      FreshAnswers s.world.calls ∧
      s.objs = [none, none, some ⟨nullptr⟩] ∧
      (∀ (i j : Nat) (b : FIBITMAP), i ≠ j → s.objs[i]? = some (some (Image.mk b)) →
        s.objs[j]? = some (some (Image.mk b)) → b = nullptr) ∧
      (∀ b, b ≠ nullptr → released s.world.calls b ≤ handedOut s.world.calls b ∧
        handedOut s.world.calls b ≤ released s.world.calls b + 1) :=
  ⟨_, rfl, by decide, by decide,
    exclusive_ownership memCodec [] ownershipProgram _ rfl (by decide)⟩

/-- C5: Move assignment overwrites the bitmap of its left operand without any
library call. In the program `leakProgram` run on the in-memory library, both
objects end destroyed, bitmap 2 is handed out once and unloaded once, but bitmap
1 is handed out once and never unloaded. Destroying an object whose bitmap is
null makes no library call. -/
theorem moveAssign_leaks_bitmap :
    (∃ s, run memCodec (State.init []) leakProgram = some s ∧
      s.objs = [none, none] ∧
      s.world.calls = [.getCopyrightMessage, .setOutputMessage, .allocate 1 1 24 1,
        .allocate 1 1 24 2, .unload 2] ∧
      handedOut s.world.calls 1 = 1 ∧ released s.world.calls 1 = 0 ∧
      handedOut s.world.calls 2 = 1 ∧ released s.world.calls 2 = 1) ∧
    (∀ (s s1 : State MemState) (dst src : Nat),
      step memCodec s (.moveAssign dst src) = some s1 → s1.world.calls = s.world.calls) ∧
    (∀ w : World MemState, Image.dtor memCodec w ⟨nullptr⟩ = w) := by
  refine ⟨⟨_, rfl, by decide, by decide, by decide, by decide, by decide, by decide⟩, ?_, ?_⟩
  · intro s s1 dst src hstep
    simp only [step] at hstep
    split at hstep
    · simp only [Option.some.injEq] at hstep
      subst hstep
      rfl
    · cases hstep
  · intro w
    simp [Image.dtor]
